import Mathlib

/-!
# Verification of the iWindsurf scraper core

Shallow embedding of `iWindsurfScraper.py`: the spot registry, the payload
extraction (first brace to last brace, then JSON parse), the forecast
normalization (`OrganizeData`), the day-boundary trimming loop, and the
store update performed by `GetData`.

Strings of raw text are modelled as `List Char`; derived textual fields
(weekday names, hour labels, locations) are `String`.  Library calls of the
source (`str.title`, `datetime.strptime`, `strftime`, `json.loads`,
`DataFrame.drop_duplicates`) are modelled on the fragment of their behaviour
the program exercises, as documented on each definition.
-/

set_option autoImplicit false
set_option maxRecDepth 16384

namespace IWS

/-- Error kinds of the spec: an unknown location name or spot id, or a
payload that cannot be extracted / normalized. -/
inductive Err where
  | unknownLocation
  | malformedPayload
deriving DecidableEq

/-- Naive datetime, second precision, as produced by `datetime.strptime`. -/
structure DateTime where
  year : Nat
  month : Nat
  day : Nat
  hour : Nat
  minute : Nat
  second : Nat
deriving DecidableEq

/-- Proleptic-Gregorian leap-year test, as in Python's `datetime`. -/
def isLeap (y : Nat) : Bool :=
  y % 4 == 0 && (y % 100 != 0 || y % 400 == 0)

/-- Days in a month of a given year. -/
def daysInMonth (y m : Nat) : Nat :=
  if m = 2 then (if isLeap y then 29 else 28)
  else if m = 4 ∨ m = 6 ∨ m = 9 ∨ m = 11 then 30
  else 31

/-- Days in all years strictly before year `y` (proleptic Gregorian). -/
def daysBeforeYear (y : Nat) : Nat :=
  365 * (y - 1) + (y - 1) / 4 - (y - 1) / 100 + (y - 1) / 400

/-- Days in the months of year `y` strictly before month `m`. -/
def daysBeforeMonth (y m : Nat) : Nat :=
  (List.range (m - 1)).foldl (fun acc i => acc + daysInMonth y (i + 1)) 0

/-- `datetime.toordinal`: day number with day 1 = January 1 of year 1. -/
def toOrdinal (dt : DateTime) : Nat :=
  daysBeforeYear dt.year + daysBeforeMonth dt.year dt.month + dt.day

/-- `datetime.weekday()`: 0 = Monday .. 6 = Sunday.  January 1 of year 1
(ordinal 1) is a Monday, so the index is `(ordinal - 1) % 7`, written
`(ordinal + 6) % 7` to stay in `Nat`. -/
def weekdayIdx (dt : DateTime) : Nat :=
  (toOrdinal dt + 6) % 7

/-- The seven-element Monday-first table of the source (`DOTW` /
`weekdays` in `OrganizeData`). -/
def DOTW : List String :=
  ["Monday", "Tuesday", "Wednesday", "Thursday", "Friday", "Saturday",
   "Sunday"]

/-- `weekdays[x.weekday()]` of the source. -/
def weekdayName (dt : DateTime) : String :=
  DOTW.getD (weekdayIdx dt) ""

/-- Two-digit zero padding used by `strftime` fields. -/
def pad2 (n : Nat) : String :=
  if n < 10 then "0" ++ toString n else toString n

/-- `x.strftime("%I%p")`: 12-hour clock, zero-padded, followed by AM/PM. -/
def strftimeIp (dt : DateTime) : String :=
  pad2 (if dt.hour % 12 = 0 then 12 else dt.hour % 12) ++
    (if dt.hour < 12 then "AM" else "PM")

/-- The source's leading-zero strip: `x[1:] if x[0] == '0' else x`. -/
def stripLeadingZero (s : String) : String :=
  match s.data with
  | '0' :: rest => String.mk rest
  | _ => s

/-- Digit value of an ASCII digit character. -/
def digitVal (c : Char) : Nat := c.toNat - 48

/-- Models `datetime.strptime(s, "%Y-%m-%d %H:%M:%S")` on fixed-width
zero-padded inputs (the only shape the provider emits): exactly
`YYYY-MM-DD HH:MM:SS`, with the calendar and clock range checks that
constructing a `datetime` performs.  Returns `none` where Python raises
`ValueError`. -/
def strptimeYmdHms (cs : List Char) : Option DateTime :=
  match cs with
  | [y1, y2, y3, y4, '-', m1, m2, '-', d1, d2, ' ',
     h1, h2, ':', n1, n2, ':', s1, s2] =>
    if ([y1, y2, y3, y4, m1, m2, d1, d2, h1, h2, n1, n2, s1, s2]).all
        (fun c => c.isDigit) then
      let y := 1000 * digitVal y1 + 100 * digitVal y2 + 10 * digitVal y3 +
        digitVal y4
      let mo := 10 * digitVal m1 + digitVal m2
      let d := 10 * digitVal d1 + digitVal d2
      let h := 10 * digitVal h1 + digitVal h2
      let mi := 10 * digitVal n1 + digitVal n2
      let s := 10 * digitVal s1 + digitVal s2
      if 1 ≤ y ∧ 1 ≤ mo ∧ mo ≤ 12 ∧ 1 ≤ d ∧ d ≤ daysInMonth y mo ∧
          h ≤ 23 ∧ mi ≤ 59 ∧ s ≤ 59 then
        some ⟨y, mo, d, h, mi, s⟩
      else none
    else none
  | _ => none

/-- The timestamp normalization of `OrganizeData`:
`datetime.strptime(x[:-5], "%Y-%m-%d %H:%M:%S")` — drop the last five
characters, then parse the fixed format. -/
def parseLocalTime (s : String) : Option DateTime :=
  strptimeYmdHms (s.data.take (s.data.length - 5))

/-- One step of Python's `str.title()`: a cased (alphabetic) character is
uppercased when the previous character is not cased, lowercased otherwise;
uncased characters pass through. -/
def titleCaseGo : Bool → List Char → List Char
  | _, [] => []
  | prevCased, c :: cs =>
    if c.isAlpha then
      (if prevCased then c.toLower else c.toUpper) :: titleCaseGo true cs
    else
      c :: titleCaseGo false cs

/-- Python's `str.title()` (ASCII fragment, which covers every name the
program handles). -/
def titleCase (s : String) : String :=
  String.mk (titleCaseGo false s.data)

/-- `LOCATION_LOOKUP` of the source, in declaration order. -/
def LOCATION_LOOKUP : List (String × Int) :=
  [("3Rd Ave Channel", 1374),
   ("Anita Rock-Crissy Field", 411),
   ("Palo Alto", 425),
   ("Coyote Point", 408)]

/-- `self.LOCATION_LOOKUP[name]`: dict lookup by key, `none` where Python
raises `KeyError`. -/
def lookupId (name : String) : Option Int :=
  (LOCATION_LOOKUP.find? (fun p => p.1 == name)).map (fun p => p.2)

/-- `resolveToId` of the spec, as the source performs it at the start of
`GetData`: `LOCATION_LOOKUP[location.title()]`. -/
def resolveToId (location : String) : Option Int :=
  lookupId (titleCase location)

/-- `inv_map = {v: k for k, v in LOCATION_LOOKUP.items()}; inv_map[id]`.
A dict comprehension lets a later pair overwrite an earlier one with the
same value, so the lookup searches the reversed pair list (the values here
are distinct, making this equal to a first-match search). -/
def invLookup (id : Int) : Option String :=
  (LOCATION_LOOKUP.reverse.find? (fun p => p.2 == id)).map (fun p => p.1)

/-- Structured values, as `json.loads` produces them on the provider's
payloads: objects, arrays, strings, and (integer) numbers.  Escapes,
floats, booleans and null do not occur in the payloads this development
evaluates, so the model omits them. -/
inductive Json where
  | num (n : Int)
  | str (s : String)
  | arr (elems : List Json)
  | obj (fields : List (String × Json))

/-- JSON insignificant whitespace. -/
def isWs (c : Char) : Bool :=
  c == ' ' || c == '\n' || c == '\t' || c == '\r'

/-- Drop leading JSON whitespace. -/
def skipWs : List Char → List Char
  | [] => []
  | c :: cs => if isWs c then skipWs cs else c :: cs

/-- Body of a JSON string after the opening quote: the characters up to the
closing quote, and the remainder. -/
def parseStrBody : List Char → Option (List Char × List Char)
  | [] => none
  | c :: cs =>
    if c == '"' then some ([], cs)
    else if c == '\\' then none
    else (parseStrBody cs).map (fun p => (c :: p.1, p.2))

/-- A nonempty run of decimal digits, as a number, with the remainder. -/
def parseDigits (cs : List Char) : Option (Nat × List Char) :=
  let ds := cs.takeWhile (fun c => c.isDigit)
  if ds.isEmpty then none
  else some (ds.foldl (fun acc c => 10 * acc + digitVal c) 0,
             cs.drop ds.length)

/-- Parser mode: a single value, the members of an object after its opening
brace, or the elements of an array after its opening bracket. -/
inductive PMode where
  | val
  | members
  | elems

/-- Fuel-indexed recursive descent over the JSON grammar fragment above.
In `members` mode the result is the `Json.obj` of the remaining members, in
`elems` mode the `Json.arr` of the remaining elements. -/
def parseJ : Nat → PMode → List Char → Option (Json × List Char)
  | 0, _, _ => none
  | fuel + 1, PMode.val, cs =>
    match skipWs cs with
    | '"' :: rest =>
      (parseStrBody rest).map (fun p => (Json.str (String.mk p.1), p.2))
    | '\x7b' :: rest =>
      (match skipWs rest with
       | '\x7d' :: r2 => some (Json.obj [], r2)
       | r2 => parseJ fuel PMode.members r2)
    | '[' :: rest =>
      (match skipWs rest with
       | ']' :: r2 => some (Json.arr [], r2)
       | r2 => parseJ fuel PMode.elems r2)
    | '-' :: rest =>
      (parseDigits rest).map (fun p => (Json.num (-(p.1 : Int)), p.2))
    | c :: rest =>
      if c.isDigit then
        (parseDigits (c :: rest)).map (fun p => (Json.num (p.1 : Int), p.2))
      else none
    | [] => none
  | fuel + 1, PMode.members, cs =>
    match skipWs cs with
    | '"' :: rest =>
      (match parseStrBody rest with
       | some (k, r1) =>
         (match skipWs r1 with
          | ':' :: r2 =>
            (match parseJ fuel PMode.val r2 with
             | some (v, r3) =>
               (match skipWs r3 with
                | ',' :: r4 =>
                  (match parseJ fuel PMode.members r4 with
                   | some (Json.obj fields, r5) =>
                     some (Json.obj ((String.mk k, v) :: fields), r5)
                   | _ => none)
                | '\x7d' :: r4 => some (Json.obj [(String.mk k, v)], r4)
                | _ => none)
             | none => none)
          | _ => none)
       | none => none)
    | _ => none
  | fuel + 1, PMode.elems, cs =>
    match parseJ fuel PMode.val cs with
    | some (v, r1) =>
      (match skipWs r1 with
       | ',' :: r2 =>
         (match parseJ fuel PMode.elems r2 with
          | some (Json.arr es, r3) => some (Json.arr (v :: es), r3)
          | _ => none)
       | ']' :: r2 => some (Json.arr [v], r2)
       | _ => none)
    | none => none

/-- `json.loads`: parse one value and require only whitespace after it.
The fuel bound exceeds what any input of this length can consume. -/
def jsonParse (cs : List Char) : Option Json :=
  match parseJ (2 * cs.length + 4) PMode.val cs with
  | some (v, rest) => if (skipWs rest).isEmpty then some v else none
  | none => none

/-- Index of the first occurrence of `c`, as `str.index` finds it
(`none` where Python raises `ValueError`). -/
def findIdx (cs : List Char) (c : Char) : Option Nat :=
  cs.findIdx? (fun x => x == c)

/-- `str.rfind`: index of the last occurrence, `none` for Python's `-1`. -/
def rfindIdx (cs : List Char) (c : Char) : Option Nat :=
  (cs.reverse.findIdx? (fun x => x == c)).map (fun j => cs.length - 1 - j)

/-- The payload extraction of `GetData`:
`start_idx = text.index('\x7b')`, `end_idx = text.rfind('\x7d') + 1`,
`json.loads(text[start_idx:end_idx])`.  A missing opening brace raises
(`ValueError`); a missing closing brace makes `end_idx` zero, so the slice
is empty and `json.loads` fails; both surface as `malformedPayload`. -/
def extract (cs : List Char) : Except Err Json :=
  match findIdx cs '\x7b' with
  | none => Except.error Err.malformedPayload
  | some start_idx =>
    let end_idx : Nat :=
      match rfindIdx cs '\x7d' with
      | none => 0
      | some j => j + 1
    match jsonParse ((cs.drop start_idx).take (end_idx - start_idx)) with
    | some v => Except.ok v
    | none => Except.error Err.malformedPayload

/-- Python dict indexing `j[k]` on a parsed object, `none` where Python
raises (`KeyError` on a missing key, `TypeError` on a non-dict).  A later
duplicate key overwrites an earlier one in a Python dict, hence the search
over the reversed field list. -/
def getField (j : Json) (k : String) : Option Json :=
  match j with
  | Json.obj fields => (fields.reverse.find? (fun p => p.1 == k)).map (fun p => p.2)
  | _ => none

/-- A parsed value usable as a list, as iterating it requires. -/
def asArr : Json → Option (List Json)
  | Json.arr elems => some elems
  | _ => none

/-- A parsed value usable as text. -/
def asStr : Json → Option String
  | Json.str s => some s
  | _ => none

/-- A parsed value usable as a number. -/
def asNum : Json → Option Int
  | Json.num n => some n
  | _ => none

/-- One row of the `df_wind` DataFrame built by `OrganizeData`:
columns Location, DateTime, Weekday, Hour, Wind Speed [mph]. -/
structure Record where
  location : String
  dateTime : DateTime
  weekday : String
  hour : String
  windSpeed : Int
deriving DecidableEq

/-- The distinct weekday values of the frame, as `np.unique` collects
them.  `np.unique` returns them sorted; only membership in the collection
is consumed (the loop body is insensitive to iteration order), so the
model keeps them unsorted. -/
def uniqueWeekdays : List Record → List String
  | [] => []
  | r :: rs =>
    let rest := uniqueWeekdays rs
    if r.weekday ∈ rest then rest else r.weekday :: rest

/-- `df_temp['DateTime'].values[0].day`: day-of-month of the first record
(in frame order) bearing weekday `w`. -/
def dayFirstOf (df : List Record) (w : String) : Option Nat :=
  (df.find? (fun r => r.weekday == w)).map (fun r => r.dateTime.day)

/-- The row labels the inner loop collects for weekday `w`: positions of
records with weekday `w` whose day-of-month differs from the first
occurrence's day-of-month. -/
def dropIdxsFor (df : List Record) (w : String) : List Nat :=
  match dayFirstOf df w with
  | none => []
  | some d0 =>
    (df.enum.filter
      (fun p => decide (p.2.weekday = w ∧ p.2.dateTime.day ≠ d0))).map
      (fun p => p.1)

/-- The full `indices` list accumulated over all distinct weekdays. -/
def trimIdxs (df : List Record) : List Nat :=
  (uniqueWeekdays df).foldl (fun acc w => acc ++ dropIdxsFor df w) []

/-- `df_wind.drop(index=indices)`: the duplicate-day removal closing
`OrganizeData` (its index is the fresh range index, i.e. positions). -/
def trim (df : List Record) : List Record :=
  (df.enum.filter (fun p => !decide (p.1 ∈ trimIdxs df))).map (fun p => p.2)

/-- `OrganizeData(wind_dict)`: read `model_data`, collect the local-time
texts and wind speeds, parse the timestamps (drop last five characters,
fixed format), derive weekday names and hour labels, resolve `spot_id`
through the inverted registry, assemble the frame, and trim duplicate
days.  Failures follow the source's raise points in order; a missing
required field is `malformedPayload`, a `spot_id` absent from the registry
is `unknownLocation`. -/
def organizeData (wind_dict : Json) : Except Err (List Record) :=
  match (getField wind_dict "model_data").bind asArr with
  | none => Except.error Err.malformedPayload
  | some model_data =>
    match model_data.mapM (fun x => (getField x "model_time_local").bind asStr) with
    | none => Except.error Err.malformedPayload
    | some wind_time_text =>
      match model_data.mapM (fun x => (getField x "wind_speed").bind asNum) with
      | none => Except.error Err.malformedPayload
      | some wind_speed =>
        match wind_time_text.mapM parseLocalTime with
        | none => Except.error Err.malformedPayload
        | some wind_time =>
          let wind_weekday := wind_time.map weekdayName
          let wind_hour := wind_time.map (fun dt => stripLeadingZero (strftimeIp dt))
          match getField wind_dict "spot_id" with
          | none => Except.error Err.malformedPayload
          | some sid =>
            match (asNum sid).bind invLookup with
            | none => Except.error Err.unknownLocation
            | some location =>
              let df_wind : List Record :=
                (((wind_time.zip wind_weekday).zip wind_hour).zip wind_speed).map
                  (fun q => ⟨location, q.1.1.1, q.1.1.2, q.1.2, q.2⟩)
              Except.ok (trim df_wind)

/-- The deduplication key of the store: the `subset=['Location', 'DateTime']`
of `drop_duplicates`. -/
def key (r : Record) : String × DateTime :=
  (r.location, r.dateTime)

/-- `drop_duplicates(subset=['Location', 'DateTime'], keep='last')`: a row
survives exactly when no later row shares its key, surviving rows keep
their relative order (`ignore_index` only renumbers labels). -/
def dedupKeepLast : List Record → List Record
  | [] => []
  | r :: rs =>
    if ∃ s ∈ rs, key s = key r then dedupKeepLast rs
    else r :: dedupKeepLast rs

/-- The store update of `GetData` (lines 84-91).  On a first fetch the
frame becomes the store.  Otherwise the source evaluates
`self.data.append(df_wind)` — `DataFrame.append` returns a new frame and
the result is never assigned, mirrored here by a discarded binding — and
then deduplicates `self.data` in place, keeping the last row per
(Location, DateTime) key. -/
def merge (store : Option (List Record)) (df_wind : List Record) :
    Option (List Record) :=
  match store with
  | none => some df_wind
  | some d =>
    let _appended := d ++ df_wind
    some (dedupKeepLast d)

/-- The mutable fields of the scraper object: the accumulated store
`self.data` and the last extracted payload `self.dict`. -/
structure ScraperState where
  data : Option (List Record)
  dict : Option Json

/-- `GetData(location)`, with the network response text passed in as the
external collaborator's output.  Returns the object state after the call
together with the normal result or the error that aborted the cycle;
mutations preceding a raise persist, as they do in Python. -/
def getData (st : ScraperState) (location : String) (soup_text : List Char) :
    ScraperState × Except Err (List Record) :=
  match resolveToId location with
  | none => (st, Except.error Err.unknownLocation)
  | some _spot_id =>
    match extract soup_text with
    | Except.error e => (st, Except.error e)
    | Except.ok wind_dict =>
      let st1 : ScraperState := ⟨st.data, some wind_dict⟩
      match organizeData wind_dict with
      | Except.error e => (st1, Except.error e)
      | Except.ok df_wind => (⟨merge st1.data df_wind, st1.dict⟩, Except.ok df_wind)

/-! ### Derived predicates and concrete fixtures -/

/-- The record-level form of the trimming rule: a record is kept exactly
when its day-of-month equals the day-of-month of the first record (in
frame order) bearing the same weekday label.  Used to characterize `trim`. -/
def trimKeep (df : List Record) (r : Record) : Bool :=
  match dayFirstOf df r.weekday with
  | some d0 => r.dateTime.day == d0
  | none => true

/-- Modelled from the spec: the hour label as §4.3 words it — the 12-hour
clock value with no leading zero, AM/PM appended without a space, midnight
rendered "12AM" and noon "12PM".  Compared against the source's
strftime-then-strip computation. -/
def hourLabelSpec (h : Nat) : String :=
  (if h % 12 = 0 then "12" else toString (h % 12)) ++
    (if h < 12 then "AM" else "PM")

/-- Record `i` of the synthetic Monday-to-Monday series: hourly records
starting 2024-03-04 (a Monday) 00:00, so records 0-167 cover Monday
through Sunday (24 each) and records 168-170 are the first three hours of
the following Monday, 2024-03-11. -/
def mondayRec (i : Nat) : Record :=
  let dt : DateTime := ⟨2024, 3, 4 + i / 24, i % 24, 0, 0⟩
  ⟨"Palo Alto", dt, weekdayName dt, stripLeadingZero (strftimeIp dt), 10⟩

/-- The synthetic series of §8 item 4: a first Monday with 24 records and
a second Monday with 3. -/
def mondaySeries : List Record :=
  (List.range 171).map mondayRec

/-- The timestamp T of §8 item 5. -/
def T0 : DateTime := ⟨2024, 3, 7, 9, 0, 0⟩

/-- Series A's record: Palo Alto at T with speed 10. -/
def recA10 : Record := ⟨"Palo Alto", T0, "Thursday", "9AM", 10⟩

/-- Series B's record: Palo Alto at the same T with speed 12. -/
def recB12 : Record := ⟨"Palo Alto", T0, "Thursday", "9AM", 12⟩

/-- A canonical record on Thursday 2024-03-07. -/
def recMar7 : Record :=
  ⟨"Palo Alto", ⟨2024, 3, 7, 9, 0, 0⟩, weekdayName ⟨2024, 3, 7, 9, 0, 0⟩,
   "9AM", 10⟩

/-- A canonical record on Thursday 2024-11-07: same weekday label and same
day-of-month as `recMar7`, eight months later. -/
def recNov7 : Record :=
  ⟨"Palo Alto", ⟨2024, 11, 7, 9, 0, 0⟩, weekdayName ⟨2024, 11, 7, 9, 0, 0⟩,
   "9AM", 12⟩

/-- A scraper state with one accumulated record and no cached payload. -/
def stWit : ScraperState := ⟨some [recA10], none⟩

/-- A raw response whose embedded payload carries the spec's example
timestamp text with its three-character timezone suffix. -/
def payload08 : List Char :=
  String.data ("f(\x7b\"spot_id\":425,\"model_data\":[\x7b\"model_time_local\":" ++
    "\"2024-03-07 09:00:00-08\",\"wind_speed\":10\x7d]\x7d);")

/-- A raw response with a five-character timezone suffix on each
timestamp, covering the 9AM, midnight and noon cases. -/
def payloadGood : List Char :=
  String.data ("jQuery17(\x7b\"spot_id\":425,\"model_data\":[" ++
    "\x7b\"model_time_local\":\"2024-03-07 09:00:00-0800\",\"wind_speed\":10\x7d," ++
    "\x7b\"model_time_local\":\"2024-03-07 00:00:00-0800\",\"wind_speed\":11\x7d," ++
    "\x7b\"model_time_local\":\"2024-03-07 12:00:00-0800\",\"wind_speed\":12\x7d]\x7d);")

/-- The canonical series `payloadGood` normalizes to. -/
def goodRecs : List Record :=
  [⟨"Palo Alto", ⟨2024, 3, 7, 9, 0, 0⟩, "Thursday", "9AM", 10⟩,
   ⟨"Palo Alto", ⟨2024, 3, 7, 0, 0, 0⟩, "Thursday", "12AM", 11⟩,
   ⟨"Palo Alto", ⟨2024, 3, 7, 12, 0, 0⟩, "Thursday", "12PM", 12⟩]

/-- A raw response that extracts cleanly but names a spot id absent from
the registry. -/
def payloadUnknownSpot : List Char :=
  String.data "x(\x7b\"spot_id\":999,\"model_data\":[]\x7d)y"

/-- The structured object embedded in `payloadUnknownSpot`. -/
def jUnknownSpot : Json :=
  Json.obj [("spot_id", Json.num 999), ("model_data", Json.arr [])]

/-! ### Helper lemmas on the trimming pass -/

theorem mem_foldl_append {α β : Type} (f : α → List β) (ws : List α)
    (acc : List β) (i : β) :
    i ∈ ws.foldl (fun acc w => acc ++ f w) acc ↔
      i ∈ acc ∨ ∃ w ∈ ws, i ∈ f w := by
  induction ws generalizing acc with
  | nil => simp
  | cons w ws ih =>
    simp only [List.foldl_cons, ih, List.mem_append, List.mem_cons]
    constructor
    · rintro ((h | h) | ⟨w2, hw2, hi⟩)
      · exact Or.inl h
      · exact Or.inr ⟨w, Or.inl rfl, h⟩
      · exact Or.inr ⟨w2, Or.inr hw2, hi⟩
    · rintro (h | ⟨w2, (rfl | hw2), hi⟩)
      · exact Or.inl (Or.inl h)
      · exact Or.inl (Or.inr hi)
      · exact Or.inr ⟨w2, hw2, hi⟩

theorem mem_uniqueWeekdays (df : List Record) (w : String) :
    w ∈ uniqueWeekdays df ↔ ∃ r ∈ df, r.weekday = w := by
  induction df with
  | nil => simp [uniqueWeekdays]
  | cons r rs ih =>
    simp only [uniqueWeekdays]
    by_cases h : r.weekday ∈ uniqueWeekdays rs
    · simp only [h, if_true, ih, List.mem_cons]
      constructor
      · rintro ⟨s, hs, rfl⟩
        exact ⟨s, Or.inr hs, rfl⟩
      · rintro ⟨s, (rfl | hs), rfl⟩
        · exact ih.mp h
        · exact ⟨s, hs, rfl⟩
    · simp only [h, if_false, List.mem_cons, ih]
      constructor
      · rintro (rfl | ⟨s, hs, rfl⟩)
        · exact ⟨r, Or.inl rfl, rfl⟩
        · exact ⟨s, Or.inr hs, rfl⟩
      · rintro ⟨s, (rfl | hs), rfl⟩
        · exact Or.inl rfl
        · exact Or.inr ⟨s, hs, rfl⟩

theorem enum_snd_eq_of_fst_eq {l : List Record} {i : Nat} {r s : Record}
    (h1 : (i, r) ∈ l.enum) (h2 : (i, s) ∈ l.enum) : r = s := by
  have a := List.mk_mem_enum_iff_getElem?.mp h1
  have b := List.mk_mem_enum_iff_getElem?.mp h2
  rw [a] at b
  exact Option.some_inj.mp b

theorem mem_of_mem_enum {l : List Record} {i : Nat} {r : Record}
    (h : (i, r) ∈ l.enum) : r ∈ l :=
  List.getElem?_mem (List.mk_mem_enum_iff_getElem?.mp h)

theorem mem_dropIdxsFor {df : List Record} {w : String} {i : Nat} :
    i ∈ dropIdxsFor df w ↔
      ∃ r d0, (i, r) ∈ df.enum ∧ r.weekday = w ∧
        dayFirstOf df w = some d0 ∧ r.dateTime.day ≠ d0 := by
  unfold dropIdxsFor
  cases hd : dayFirstOf df w with
  | none => simp [hd]
  | some d0 =>
    simp only [List.mem_map, List.mem_filter, decide_eq_true_eq, hd]
    constructor
    · rintro ⟨⟨j, r⟩, ⟨hmem, hw, hday⟩, rfl⟩
      exact ⟨r, d0, hmem, hw, rfl, hday⟩
    · rintro ⟨r, d0h, hmem, hw, hsome, hday⟩
      have : d0 = d0h := Option.some_inj.mp hsome
      subst this
      exact ⟨(i, r), ⟨hmem, hw, hday⟩, rfl⟩

theorem mem_trimIdxs_iff {df : List Record} {i : Nat} {r : Record}
    (hir : (i, r) ∈ df.enum) :
    i ∈ trimIdxs df ↔ trimKeep df r = false := by
  unfold trimIdxs
  rw [mem_foldl_append]
  simp only [List.not_mem_nil, false_or]
  constructor
  · rintro ⟨w, _hw, hi⟩
    obtain ⟨r2, d0, hmem2, hw2, hsome, hday⟩ := mem_dropIdxsFor.mp hi
    have : r2 = r := enum_snd_eq_of_fst_eq hmem2 hir
    subst this
    subst hw2
    unfold trimKeep
    rw [hsome]
    simp [hday]
  · intro hk
    unfold trimKeep at hk
    cases hd : dayFirstOf df r.weekday with
    | none => rw [hd] at hk; simp at hk
    | some d0 =>
      rw [hd] at hk
      have hday : r.dateTime.day ≠ d0 := by simpa using hk
      refine ⟨r.weekday, ?_, ?_⟩
      · exact (mem_uniqueWeekdays df r.weekday).mpr
          ⟨r, mem_of_mem_enum hir, rfl⟩
      · exact mem_dropIdxsFor.mpr ⟨r, d0, hir, rfl, hd, hday⟩

theorem trim_eq_filter (df : List Record) :
    trim df = df.filter (trimKeep df) := by
  unfold trim
  have h1 : ∀ p ∈ df.enum,
      (!decide (p.1 ∈ trimIdxs df)) = trimKeep df p.2 := by
    rintro ⟨i, r⟩ hp
    cases hval : trimKeep df r with
    | false =>
      have hm : i ∈ trimIdxs df := (mem_trimIdxs_iff hp).mpr hval
      simp [hm]
    | true =>
      have hm : i ∉ trimIdxs df := fun hmem => by
        have := (mem_trimIdxs_iff hp).mp hmem
        rw [hval] at this
        simp at this
      simp [hm]
  rw [List.filter_congr h1]
  rw [show (fun p : Nat × Record => trimKeep df p.2) =
        ((trimKeep df) ∘ Prod.snd) from rfl]
  rw [← List.filter_map, List.enum_map_snd]

theorem dayFirstOf_mem {df : List Record} {r : Record} (h : r ∈ df) :
    ∃ d0, dayFirstOf df r.weekday = some d0 := by
  have hsome : (df.find? (fun s => s.weekday == r.weekday)).isSome :=
    List.find?_isSome.mpr ⟨r, h, by simp⟩
  obtain ⟨s, hs⟩ := Option.isSome_iff_exists.mp hsome
  exact ⟨s.dateTime.day, by simp [dayFirstOf, hs]⟩

/-! ### Helper lemmas on the store deduplication -/

theorem mem_of_mem_dedupKeepLast {l : List Record} {s : Record} :
    s ∈ dedupKeepLast l → s ∈ l := by
  induction l with
  | nil => intro h; simp [dedupKeepLast] at h
  | cons r rs ih =>
    intro h
    rw [dedupKeepLast] at h
    split_ifs at h with hc
    · exact List.mem_cons_of_mem r (ih h)
    · rcases List.mem_cons.mp h with h1 | h2
      · subst h1
        exact List.mem_cons_self _ _
      · exact List.mem_cons_of_mem _ (ih h2)

theorem dedupKeepLast_pairwise (l : List Record) :
    List.Pairwise (fun a b => key a ≠ key b) (dedupKeepLast l) := by
  induction l with
  | nil => simp [dedupKeepLast]
  | cons r rs ih =>
    rw [dedupKeepLast]
    split_ifs with hc
    · exact ih
    · refine List.Pairwise.cons ?_ ih
      intro s hs hkey
      exact hc ⟨s, mem_of_mem_dedupKeepLast hs, hkey.symm⟩

theorem dedupKeepLast_eq_self {l : List Record} :
    List.Pairwise (fun a b => key a ≠ key b) l → dedupKeepLast l = l := by
  induction l with
  | nil => intro _; rfl
  | cons r rs ih =>
    intro h
    obtain ⟨h1, h2⟩ := List.pairwise_cons.mp h
    rw [dedupKeepLast]
    split_ifs with hc
    · obtain ⟨s, hs, hkey⟩ := hc
      exact absurd hkey.symm (h1 s hs)
    · rw [ih h2]

theorem dedupKeepLast_idem (l : List Record) :
    dedupKeepLast (dedupKeepLast l) = dedupKeepLast l :=
  dedupKeepLast_eq_self (dedupKeepLast_pairwise l)

/-! ### Claim theorems -/

/-- C1: merging series B (same location, same timestamp T, speed 12) into a
store already holding series A (speed 10 at T) leaves the store with the
old record at speed 10 — the `DataFrame.append` result is discarded, so the
claimed last-write-wins union does not happen and the incoming record is
lost entirely. -/
theorem C1_second_merge_keeps_old_record :
    merge (some [recA10]) [recB12] = some [recA10] ∧
      recA10.windSpeed = 10 ∧ recB12.windSpeed = 12 ∧
      key recA10 = key recB12 := by
  refine ⟨rfl, rfl, rfl, rfl⟩

/-- C2 counterexample: the claimed input "2024-03-07 09:00:00-08" does not
normalize at all — stripping the last five characters leaves
"2024-03-07 09:00:" which the fixed format rejects, so the pipeline fails
with MalformedPayload instead of yielding the 9AM Thursday record. -/
theorem C2_counterexample_three_char_suffix :
    parseLocalTime "2024-03-07 09:00:00-08" = none ∧
      (getData stWit "Palo Alto" payload08).2 =
        Except.error Err.malformedPayload := by
  exact ⟨rfl, rfl⟩

/-- C2 (amended): with the five-character timezone suffix the strip-parse
normalization yields 2024-03-07T09:00:00, weekday Thursday, hour label
"9AM"; midnight yields "12AM" and noon "12PM", also through the full
fetch pipeline. -/
theorem C2_amended_five_char_suffix :
    parseLocalTime "2024-03-07 09:00:00-0800" = some ⟨2024, 3, 7, 9, 0, 0⟩ ∧
      weekdayName ⟨2024, 3, 7, 9, 0, 0⟩ = "Thursday" ∧
      stripLeadingZero (strftimeIp ⟨2024, 3, 7, 9, 0, 0⟩) = "9AM" ∧
      parseLocalTime "2024-03-07 00:00:00-0800" = some ⟨2024, 3, 7, 0, 0, 0⟩ ∧
      stripLeadingZero (strftimeIp ⟨2024, 3, 7, 0, 0, 0⟩) = "12AM" ∧
      parseLocalTime "2024-03-07 12:00:00-0800" = some ⟨2024, 3, 7, 12, 0, 0⟩ ∧
      stripLeadingZero (strftimeIp ⟨2024, 3, 7, 12, 0, 0⟩) = "12PM" ∧
      (getData ⟨none, none⟩ "Palo Alto" payloadGood).2 = Except.ok goodRecs := by
  refine ⟨rfl, rfl, rfl, rfl, rfl, rfl, rfl, rfl⟩

/-- C3 counterexample: a trimmed series in which one weekday label spans
two different real dates.  Records on 2024-03-07 and 2024-11-07 share the
weekday label (both Thursdays) and the day-of-month 7, so trimming keeps
both, yet their months differ — the implied "never spans two real dates"
does not hold. -/
theorem C3_counterexample_label_spans_two_dates :
    trim [recMar7, recNov7] = [recMar7, recNov7] ∧
      recMar7.weekday = recNov7.weekday ∧
      recMar7.dateTime.month ≠ recNov7.dateTime.month := by
  refine ⟨by decide, by decide, by decide⟩

/-- C3 (amended): after trimming, any two records sharing a weekday label
share the same calendar day-of-month (the stronger "never spans two
different real dates" fails when distinct dates share the day-of-month). -/
theorem C3_same_weekday_same_day_of_month :
    ∀ (df : List Record) (r1 r2 : Record), r1 ∈ trim df → r2 ∈ trim df →
      r1.weekday = r2.weekday → r1.dateTime.day = r2.dateTime.day := by
  intro df r1 r2 h1 h2 hw
  rw [trim_eq_filter] at h1 h2
  obtain ⟨hm1, hk1⟩ := List.mem_filter.mp h1
  obtain ⟨hm2, hk2⟩ := List.mem_filter.mp h2
  obtain ⟨d0, hd⟩ := dayFirstOf_mem hm1
  unfold trimKeep at hk1 hk2
  rw [hd] at hk1
  rw [hw] at hd
  rw [hd] at hk2
  have e1 : r1.dateTime.day = d0 := by simpa using hk1
  have e2 : r2.dateTime.day = d0 := by simpa using hk2
  rw [e1, e2]

/-- Witness for C3 (amended) at a concrete trimmed series: the two kept
Thursday records of the counterexample series indeed share day-of-month. -/
theorem C3_same_weekday_same_day_of_month_witness :
    recMar7.dateTime.day = recNov7.dateTime.day :=
  C3_same_weekday_same_day_of_month [recMar7, recNov7] recMar7 recNov7
    (by decide) (by decide) (by decide)

/-- C4: the trimming pass removes exactly the records whose day-of-month
differs from that of the first-occurring record with the same weekday
label (the `trimKeep` filter), and on the Monday-to-Monday series with 24
first-Monday records and 3 second-Monday records it removes exactly those
last 3. -/
theorem C4_trim_removes_exactly_day_mismatches :
    (∀ df : List Record, trim df = df.filter (trimKeep df)) ∧
      trim mondaySeries = mondaySeries.take 168 := by
  refine ⟨trim_eq_filter, by decide⟩

/-- C5: whenever a fetch cycle ends in an error (UnknownLocation or
MalformedPayload), the accumulated store `data` is exactly what it was
before the cycle. -/
theorem C5_errors_leave_store_unchanged :
    ∀ (st : ScraperState) (loc : String) (raw : List Char) (e : Err),
      (getData st loc raw).2 = Except.error e →
      ((getData st loc raw).1).data = st.data := by
  intro st loc raw e h
  unfold getData at h ⊢
  cases hres : resolveToId loc with
  | none => simp [hres]
  | some sid =>
    cases hext : extract raw with
    | error e2 => simp [hres, hext]
    | ok j =>
      cases horg : organizeData j with
      | error e3 => simp [hres, hext, horg]
      | ok df => simp [hres, hext, horg] at h

/-- Witness for C5: a fetch with an unregistered location name fails and
leaves the one-record store untouched. -/
theorem C5_errors_leave_store_unchanged_witness :
    ((getData stWit "Nowhere" ['x']).1).data = stWit.data :=
  C5_errors_leave_store_unchanged stWit "Nowhere" ['x']
    Err.unknownLocation rfl

/-- C6: extraction parses the slice from the first opening brace to the
last closing brace (the callback-wrapped example yields the object with
field "a" ↦ 1), and fails with MalformedPayload when either delimiter is
absent, when the closing brace precedes the opening one, or when the slice
is not valid structured data. -/
theorem C6_extract_first_to_last_brace :
    extract (String.data "jQuery123(\x7b\"a\":1\x7d);") =
        Except.ok (Json.obj [("a", Json.num 1)]) ∧
      (∀ cs : List Char, (∀ c ∈ cs, c ≠ '\x7b') →
        extract cs = Except.error Err.malformedPayload) ∧
      (∀ cs : List Char, (∀ c ∈ cs, c ≠ '\x7d') →
        extract cs = Except.error Err.malformedPayload) ∧
      extract (String.data "\x7dabc\x7b") =
        Except.error Err.malformedPayload ∧
      extract (String.data "x\x7by") = Except.error Err.malformedPayload := by
  refine ⟨rfl, ?_, ?_, rfl, rfl⟩
  · intro cs h
    have hf : findIdx cs '\x7b' = none := by
      unfold findIdx
      rw [List.findIdx?_eq_none_iff]
      intro x hx
      simpa using h x hx
    unfold extract
    rw [hf]
  · intro cs h
    have hr : rfindIdx cs '\x7d' = none := by
      unfold rfindIdx
      rw [Option.map_eq_none']
      rw [List.findIdx?_eq_none_iff]
      intro x hx
      simpa using h x (List.mem_reverse.mp hx)
    unfold extract
    rw [hr]
    cases hf : findIdx cs '\x7b' with
    | none => rfl
    | some s =>
      simp only [Nat.zero_sub, List.take_zero]
      rfl

/-- Witness for C6: the delimiter-absence conjuncts at concrete inputs
with no opening brace and with no closing brace. -/
theorem C6_extract_first_to_last_brace_witness :
    extract (String.data "abc") = Except.error Err.malformedPayload ∧
      extract (String.data "a\x7bc") = Except.error Err.malformedPayload :=
  ⟨C6_extract_first_to_last_brace.2.1 (String.data "abc") (by decide),
   C6_extract_first_to_last_brace.2.2.1 (String.data "a\x7bc") (by decide)⟩

/-- C7: for every record the hour label computed by the source (strftime
"%I%p" then leading-zero strip) equals the 12-hour rendering of the spec
(no leading zero, no space, midnight "12AM", noon "12PM", hour 9 "9AM"),
and the weekday is drawn from the Monday-first table: the table's head is
"Monday", a known Monday maps to it, and the index advances by one, modulo
seven, from one day to the next. -/
theorem C7_hour_label_and_weekday_table :
    (∀ dt : DateTime, dt.hour < 24 →
      stripLeadingZero (strftimeIp dt) = hourLabelSpec dt.hour) ∧
      hourLabelSpec 9 = "9AM" ∧ hourLabelSpec 0 = "12AM" ∧
      hourLabelSpec 12 = "12PM" ∧
      weekdayName ⟨2024, 3, 4, 0, 0, 0⟩ = "Monday" ∧
      weekdayName ⟨2024, 3, 7, 0, 0, 0⟩ = "Thursday" ∧
      (∀ y m d : Nat, weekdayIdx ⟨y, m, d + 1, 0, 0, 0⟩ =
        (weekdayIdx ⟨y, m, d, 0, 0, 0⟩ + 1) % 7) := by
  refine ⟨?_, rfl, rfl, rfl, by decide, by decide, ?_⟩
  · intro dt h
    rcases dt with ⟨y, mo, d, hh, mi, ss⟩
    simp only [strftimeIp] at *
    interval_cases hh <;> rfl
  · intro y m d
    unfold weekdayIdx toOrdinal
    simp only
    omega

/-- Witness for C7 at hour 9: the source's label computation agrees with
the spec rendering on the 9AM record time. -/
theorem C7_hour_label_and_weekday_table_witness :
    stripLeadingZero (strftimeIp T0) = hourLabelSpec T0.hour :=
  C7_hour_label_and_weekday_table.1 T0 (by decide)

/-- C8: merging the same series a second time changes nothing — for any
prior store and any series with pairwise-distinct (location, timestamp)
keys, a repeat merge returns the store the first merge produced. -/
theorem C8_merge_idempotent :
    ∀ (st : Option (List Record)) (df : List Record),
      List.Pairwise (fun a b => key a ≠ key b) df →
      merge (merge st df) df = merge st df := by
  intro st df h
  cases st with
  | none =>
    show merge (some df) df = some df
    show some (dedupKeepLast df) = some df
    rw [dedupKeepLast_eq_self h]
  | some d =>
    show merge (some (dedupKeepLast d)) df = some (dedupKeepLast d)
    show some (dedupKeepLast (dedupKeepLast d)) = some (dedupKeepLast d)
    rw [dedupKeepLast_idem]

/-- Witness for C8: re-merging the one-record series into an empty store
reproduces the store of the first merge. -/
theorem C8_merge_idempotent_witness :
    merge (merge none [recA10]) [recA10] = merge none [recA10] :=
  C8_merge_idempotent none [recA10] (by decide)

/-- C9: every registry pair round-trips (title-cased name to id and id
back to name), the name and id columns are duplicate-free, and resolving
any name whose title-casing is absent, or any id absent, fails
(KeyError, the spec's UnknownLocation). -/
theorem C9_registry_roundtrip :
    (∀ p ∈ LOCATION_LOOKUP, resolveToId p.1 = some p.2 ∧
        invLookup p.2 = some p.1) ∧
      (LOCATION_LOOKUP.map Prod.fst).Nodup ∧
      (LOCATION_LOOKUP.map Prod.snd).Nodup ∧
      (∀ name : String, (∀ p ∈ LOCATION_LOOKUP, p.1 ≠ titleCase name) →
        resolveToId name = none) ∧
      (∀ id : Int, (∀ p ∈ LOCATION_LOOKUP, p.2 ≠ id) →
        invLookup id = none) := by
  refine ⟨by decide, by decide, by decide, ?_, ?_⟩
  · intro name h
    unfold resolveToId lookupId
    have : LOCATION_LOOKUP.find? (fun p => p.1 == titleCase name) = none := by
      rw [List.find?_eq_none]
      intro p hp
      simpa using h p hp
    rw [this]
    rfl
  · intro id h
    unfold invLookup
    have : LOCATION_LOOKUP.reverse.find? (fun p => p.2 == id) = none := by
      rw [List.find?_eq_none]
      intro p hp
      simpa using h p (List.mem_reverse.mp hp)
    rw [this]
    rfl

/-- Witness for C9: an unregistered name and an unregistered id both fail
to resolve. -/
theorem C9_registry_roundtrip_witness :
    resolveToId "atlantis" = none ∧ invLookup 7 = none :=
  ⟨C9_registry_roundtrip.2.2.2.1 "atlantis" (by decide),
   C9_registry_roundtrip.2.2.2.2 7 (by decide)⟩

/-- C10: when resolution and extraction succeed but normalization fails,
the returned state has `dict` already overwritten with the freshly
extracted payload while `data` is unchanged, and the call surfaces the
normalization error. -/
theorem C10_dict_overwritten_on_failed_normalize :
    ∀ (st : ScraperState) (loc : String) (raw : List Char) (sid : Int)
      (j : Json) (e : Err),
      resolveToId loc = some sid → extract raw = Except.ok j →
      organizeData j = Except.error e →
      (getData st loc raw).1.dict = some j ∧
        (getData st loc raw).1.data = st.data ∧
        (getData st loc raw).2 = Except.error e := by
  intro st loc raw sid j e h1 h2 h3
  simp only [getData, h1, h2, h3]
  exact ⟨trivial, trivial, trivial⟩

/-- Witness for C10: a payload that extracts to an object with spot id
999 (unregistered) fails normalization, yet the returned state carries
that object in `dict` with `data` untouched. -/
theorem C10_dict_overwritten_on_failed_normalize_witness :
    (getData stWit "Palo Alto" payloadUnknownSpot).1.dict =
        some jUnknownSpot ∧
      (getData stWit "Palo Alto" payloadUnknownSpot).1.data = stWit.data ∧
      (getData stWit "Palo Alto" payloadUnknownSpot).2 =
        Except.error Err.unknownLocation :=
  C10_dict_overwritten_on_failed_normalize stWit "Palo Alto"
    payloadUnknownSpot 425 jUnknownSpot Err.unknownLocation rfl rfl rfl

end IWS
